import Mathlib

/-!
Shallow embedding of `webhooks.py` (python-github-webhooks), the single-file
Flask application whose request handler `index` performs origin filtering,
HMAC signature verification, event metadata extraction, hook resolution and
hook dispatch.

Modelling conventions:
* Python values decoded from JSON are the type `Json` below; Python `None`
  is `Json.null` (JSON `null` decodes to Python `None`, and the variables
  `branch` / `name` start out as `None`).
* Python exceptions that the handler can raise are the type `PyErr`;
  `Except PyErr` models code that may raise.
* Effects on the world (temporary files via `mkstemp`/`remove`, processes
  via `Popen`, assignments into the `ran` result dict) are recorded in an
  ordered trace of `Effect` values. Temporary files are identified by the
  order of their creation (`mkstemp` is modelled as a counter).
* The ambient world (filesystem queries, the origin allow-list outcome,
  the HMAC-SHA1 hex digest function, and the exit code / stdout / stderr
  an executed hook produces) is a record `Env` of oracle functions; the
  handler is a pure function of `Config`, `Env` and `Request`.
* Float JSON numbers and Python repr of list/dict values are not needed by
  any theorem below and are given placeholder renderings in `pyStr`.
-/

/-- A decoded JSON document / Python value. `null` doubles as Python `None`. -/
inductive Json : Type where
  | null : Json
  | bool : Bool → Json
  | num : Int → Json
  | str : String → Json
  | arr : List Json → Json
  | obj : List (String × Json) → Json

/-- Python exceptions relevant to the handler. -/
inductive PyErr : Type where
  | keyError : PyErr
  | typeError : PyErr
  | indexError : PyErr
  | valueError : PyErr
deriving DecidableEq

/-- Python `k in payload` for a dict payload (the only payload shape the
handler is exercised with; membership in non-dict payloads is not needed). -/
def Json.hasKey : Json → String → Bool
  | .obj l, k => l.any (fun p => p.1 == k)
  | _, _ => false

/-- Python `payload[k]`: a missing key raises `KeyError`, subscripting a
non-dict with a string key raises `TypeError`. -/
def Json.getKey : Json → String → Except PyErr Json
  | .obj l, k =>
    match List.lookup k l with
    | some v => .ok v
    | none => .error .keyError
  | _, _ => .error .typeError

/-- Python truthiness of a decoded value (`if branch and name:` etc.). -/
def Json.truthy : Json → Bool
  | .null => false
  | .bool b => b
  | .num n => n != 0
  | .str s => s != ""
  | .arr l => !l.isEmpty
  | .obj l => !l.isEmpty

/-- Python `str(v)` as used for CLI arguments and hook-name interpolation.
`str(None) = "None"`. Container reprs are never reached by the theorems
below and get placeholder renderings. -/
def pyStr : Json → String
  | .null => "None"
  | .bool true => "True"
  | .bool false => "False"
  | .num n => toString n
  | .str s => s
  | .arr _ => "<list>"
  | .obj _ => "<dict>"

/-- Split a character list at every occurrence of `sep`
(Python `str.split(sep)` without maxsplit, on the character level). -/
def splitList (sep : Char) : List Char → List (List Char)
  | [] => [[]]
  | c :: cs =>
    let r := splitList sep cs
    if c == sep then [] :: r
    else
      match r with
      | [] => [[c]]
      | h :: t => (c :: h) :: t

/-- Python `s.split(sep)` (unlimited splits, single-character separator). -/
def pySplit (s : String) (sep : Char) : List String :=
  (splitList sep s.data).map (fun l => ⟨l⟩)

/-- Glue a list of strings back together with `sep` between them. -/
def joinSep (sep : Char) : List String → String
  | [] => ""
  | [x] => x
  | x :: xs => x ++ ⟨[sep]⟩ ++ joinSep sep xs

/-- Python `s.split(sep, 2)`: at most two splits are performed, so the result
has at most three parts and the third part keeps any further separators. -/
def pySplit2 (s : String) (sep : Char) : List String :=
  let parts := pySplit s sep
  if parts.length ≤ 3 then parts
  else parts.take 2 ++ [joinSep sep (parts.drop 2)]

/-- Python `s.endswith(suf)`. -/
def pyEndsWith (s suf : String) : Bool :=
  suf.data.isSuffixOf s.data

/-- Python `s.startswith(pre)`. -/
def pyStartsWith (s p : String) : Bool :=
  p.data.isPrefixOf s.data

/-- Python `os.path.basename` for POSIX paths: everything after the last slash
(computed by reading the characters from the right up to the first slash). -/
def basename (s : String) : String :=
  ⟨(s.data.reverse.takeWhile (fun c => c != '/')).reverse⟩

/-- Python `os.path.join(a, b)` for POSIX paths, two components. -/
def pyJoin (a b : String) : String :=
  if pyStartsWith b "/" then b
  else if a == "" then b
  else if pyEndsWith a "/" then a ++ b
  else a ++ "/" ++ b

/-- The pure-Python fallback `constant_time_compare` from the source
(length check, then an accumulated bitwise OR of XORed character codes);
`hmac.compare_digest` agrees with it on the handler's inputs. -/
def constant_time_compare (val1 val2 : String) : Bool :=
  if val1.length != val2.length then false
  else
    ((val1.data.zip val2.data).foldl
      (fun result xy => result ||| (xy.1.toNat ^^^ xy.2.toNat)) 0) == 0

/-- The four configuration values the handler reads (after `config.get`
defaulting has been applied). -/
structure Config : Type where
  github_ips_only : Bool
  enforce_secret : String
  return_scripts_info : Bool
  hooks_path : String

/-- The parts of the inbound HTTP request the handler consumes.
`jsonBody = none` models `request.get_json()` raising (malformed body). -/
structure Request : Type where
  method : String
  xHubSignature : Option String
  xGitHubEvent : Option String
  data : String
  jsonBody : Option Json

/-- Oracles for the ambient world: the outcome of the GitHub-IP allow-list
scan, filesystem queries (`os.path.isfile`, `os.access(_, X_OK)`),
`hmac.new(secret, body, sha1).hexdigest()`, and the
(returncode, stdout, stderr) a synchronous hook run produces. -/
structure Env : Type where
  ipAllowed : Bool
  isfile : String → Bool
  xok : String → Bool
  hmacHex : String → String → String
  run : String → Int × String × String

/-- One observable effect of the handler, in trace order.
Temporary files carry the index of their `mkstemp` call; `spawn` records
the `Popen` argument vector `[path, tmpfile, event, str(name), str(branch)]`
and whether the handler waited (`communicate`) for the process. `record`
is the assignment `ran[basename(s)] = ...`. -/
inductive Effect : Type where
  | tempCreate : Nat → Effect
  | spawn : String → Nat → String → String → String → Bool → Effect
  | tempRemove : Nat → Effect
  | record : String → Json → Effect

/-- How the request ends: a Flask `abort(code)`, a normal JSON response
body, or an uncaught Python exception propagating out of the handler. -/
inductive Outcome : Type where
  | abort : Nat → Outcome
  | response : Json → Outcome
  | pyError : PyErr → Outcome

/-- Lines 96-115: the `enforce_secret` block. `none` means verification
passed (or was skipped because the secret is empty) and the request
proceeds; `some o` means the request ends with outcome `o`. The two-way
unpack `sha_name, signature = header_signature.split('=')` raises
`ValueError` unless the split has exactly two parts. -/
def checkSecret (cfg : Config) (env : Env) (req : Request) : Option Outcome :=
  if cfg.enforce_secret != "" then
    match req.xHubSignature with
    | none => some (.abort 403)
    | some h =>
      match pySplit h '=' with
      | [sha_name, signature] =>
        if sha_name != "sha1" then some (.abort 501)
        else if !constant_time_compare
            (env.hmacHex cfg.enforce_secret req.data) signature then
          some (.abort 403)
        else none
      | _ => some (.pyError .valueError)
  else none

/-- Lines 131-153: the `try`/`except KeyError` body deriving `branch`.
Errors other than `KeyError` propagate to the caller. -/
def tryBranch (event : String) (payload : Json) : Except PyErr Json :=
  if payload.hasKey "ref_type" then
    match payload.getKey "ref_type" with
    | .error e => .error e
    | .ok rt =>
      match rt with
      | .str s => if s == "branch" then payload.getKey "ref" else .ok .null
      | _ => .ok .null
  else if payload.hasKey "pull_request" then
    match payload.getKey "pull_request" with
    | .error e => .error e
    | .ok pr =>
      match pr.getKey "base" with
      | .error e => .error e
      | .ok base => base.getKey "ref"
  else if event == "push" then
    match payload.getKey "ref" with
    | .error e => .error e
    | .ok r =>
      match r with
      | .str s =>
        match (pySplit2 s '/').get? 2 with
        | some b => .ok (.str b)
        | none => .error .indexError
      | _ => .error .typeError
  else .ok .null

/-- Lines 131-153 with the `except KeyError: pass` catch applied:
a `KeyError` anywhere in the body leaves `branch = None`. -/
def extractBranch (event : String) (payload : Json) : Except PyErr Json :=
  match tryBranch event payload with
  | .ok b => .ok b
  | .error .keyError => .ok .null
  | .error e => .error e

/-- Line 157: `payload['repository']['name'] if 'repository' in payload
else None`. Note the inner `['name']` lookup is not guarded. -/
def extractName (payload : Json) : Except PyErr Json :=
  if payload.hasKey "repository" then
    match payload.getKey "repository" with
    | .error e => .error e
    | .ok r => r.getKey "name"
  else .ok .null

/-- Line 167: `if event == 'push' and payload['deleted']:` — the `deleted`
lookup is unconditional for push events and may raise `KeyError`. -/
def pushDelete (event : String) (payload : Json) : Except PyErr Bool :=
  if event == "push" then
    match payload.getKey "deleted" with
    | .ok d => .ok d.truthy
    | .error e => .error e
  else .ok false

/-- Lines 171-187: the ordered hook candidate list. `name` and `branch`
are the Python values produced by extraction; the guards are Python
truthiness tests and `str(...)` interpolation builds the file names. -/
def buildScripts (hooks event : String) (name branch : Json) : List String :=
  (if branch.truthy && name.truthy then
    [pyJoin hooks (event ++ "-" ++ pyStr name ++ "-" ++ pyStr branch),
     pyJoin hooks (event ++ "-" ++ pyStr name ++ "-" ++ pyStr branch ++ "-background")]
   else []) ++
  (if name.truthy then
    [pyJoin hooks (event ++ "-" ++ pyStr name),
     pyJoin hooks (event ++ "-" ++ pyStr name ++ "-background")]
   else []) ++
  [pyJoin hooks event,
   pyJoin hooks (event ++ "-background"),
   pyJoin hooks "all",
   pyJoin hooks "all-background"]

/-- The dict value recorded for a backgrounded hook (source line 215-217). -/
def bgEntry : Json :=
  Json.obj [("backgrounded", Json.str "yes")]

/-- The dict value recorded for a synchronous hook (source lines 226-230). -/
def syncEntry (out : Int × String × String) : Json :=
  Json.obj [("returncode", Json.num out.1),
            ("stdout", Json.str out.2.1),
            ("stderr", Json.str out.2.2)]

/-- Python dict assignment `d[k] = v`: update in place if the key exists,
else append (insertion order preserved). -/
def dictInsert (l : List (String × Json)) (k : String) (v : Json) :
    List (String × Json) :=
  if l.any (fun p => p.1 == k) then
    l.map (fun p => if p.1 == k then (k, v) else p)
  else l ++ [(k, v)]

/-- Lines 199-236: the dispatch loop over the resolved scripts. Arguments:
the run oracle, `event`, `str(name)`, `str(branch)`, the shared temp-file
id `tmp`, then the remaining scripts, the next fresh temp-file id, and the
`ran` dict so far. Returns the effect trace of the loop, the final `ran`
dict, and the next fresh temp-file id. -/
def runScripts (run : String → Int × String × String)
    (ev nameArg branchArg : String) (tmp : Nat) :
    List String → Nat → List (String × Json) →
    List Effect × List (String × Json) × Nat
  | [], ctr, ran => ([], ran, ctr)
  | s :: rest, ctr, ran =>
    if pyEndsWith s "-background" then
      let r := runScripts run ev nameArg branchArg tmp rest (ctr + 1)
        (dictInsert ran (basename s) bgEntry)
      (Effect.tempCreate ctr ::
        Effect.spawn s ctr ev nameArg branchArg false ::
        Effect.record (basename s) bgEntry :: r.1, r.2)
    else
      let entry := syncEntry (run s)
      let r := runScripts run ev nameArg branchArg tmp rest ctr
        (dictInsert ran (basename s) entry)
      (Effect.spawn s tmp ev nameArg branchArg true ::
        Effect.record (basename s) entry :: r.1, r.2)

/-- Insert a key-value pair into a key-sorted list (for `sort_keys=True`). -/
def insertByKey (p : String × Json) :
    List (String × Json) → List (String × Json)
  | [] => [p]
  | q :: rest => if p.1 ≤ q.1 then p :: q :: rest else q :: insertByKey p rest

/-- Python `json.dumps(ran, sort_keys=True)` ordering: the dict sorted by key. -/
def sortByKey : List (String × Json) → List (String × Json)
  | [] => []
  | p :: rest => insertByKey p (sortByKey rest)

def pongBody : Json := Json.obj [("msg", Json.str "pong")]

def skippedBody : Json := Json.obj [("status", Json.str "skipped")]

def nopBody : Json := Json.obj [("status", Json.str "nop")]

def doneBody : Json := Json.obj [("status", Json.str "done")]

/-- Lines 53-247: the whole request handler, as a pure function from the
configuration, the world oracles and the request to the ordered effect
trace and the outcome. -/
def index (cfg : Config) (env : Env) (req : Request) : List Effect × Outcome :=
  if req.method != "POST" then ([], .abort 405)
  else if cfg.github_ips_only && !env.ipAllowed then ([], .abort 403)
  else
    match checkSecret cfg env req with
    | some o => ([], o)
    | none =>
      let event := req.xGitHubEvent.getD "ping"
      if event == "ping" then ([], .response pongBody)
      else
        match req.jsonBody with
        | none => ([], .abort 400)
        | some payload =>
          match extractBranch event payload with
          | .error e => ([], .pyError e)
          | .ok branch =>
            match extractName payload with
            | .error e => ([], .pyError e)
            | .ok name =>
              match pushDelete event payload with
              | .error e => ([], .pyError e)
              | .ok true => ([], .response skippedBody)
              | .ok false =>
                let scripts := (buildScripts cfg.hooks_path event name branch).filter
                  (fun s => env.isfile s && env.xok s)
                if scripts.isEmpty then ([], .response nopBody)
                else
                  let r := runScripts env.run event (pyStr name) (pyStr branch)
                    0 scripts 1 []
                  (Effect.tempCreate 0 :: r.1 ++ [Effect.tempRemove 0],
                   if !cfg.return_scripts_info then .response doneBody
                   else .response (Json.obj (sortByKey r.2.1)))

/-- The metadata type of the spec: `name` / `branch` are optional strings;
`none` is Python `None`, i.e. `Json.null` in the handler. -/
def jsonOfOpt : Option String → Json
  | none => Json.null
  | some s => Json.str s

/-- The hook candidate list as worded by the (amended) resolver claim:
tiers most specific first, each with a `-background` variant, the
name/branch tiers present exactly when the corresponding metadata is
present and non-empty, each candidate joined under the hooks path. -/
def specCandidates (hooks event : String) (name branch : Option String) :
    List String :=
  (match name, branch with
   | some n, some b =>
     if n != "" && b != "" then
       [pyJoin hooks (event ++ "-" ++ n ++ "-" ++ b),
        pyJoin hooks (event ++ "-" ++ n ++ "-" ++ b ++ "-background")]
     else []
   | _, _ => []) ++
  (match name with
   | some n =>
     if n != "" then
       [pyJoin hooks (event ++ "-" ++ n),
        pyJoin hooks (event ++ "-" ++ n ++ "-background")]
     else []
   | none => []) ++
  [pyJoin hooks event,
   pyJoin hooks (event ++ "-background"),
   pyJoin hooks "all",
   pyJoin hooks "all-background"]

/-- The paths of all spawned processes, in trace order. -/
def spawnPaths : List Effect → List String
  | [] => []
  | .spawn s _ _ _ _ _ :: r => s :: spawnPaths r
  | _ :: r => spawnPaths r

/-- Is this effect the removal of a temporary file? -/
def Effect.isRemove : Effect → Bool
  | .tempRemove _ => true
  | _ => false

/-- Is this effect the creation of a temporary file? -/
def Effect.isCreate : Effect → Bool
  | .tempCreate _ => true
  | _ => false

/-- Is this effect the creation of the temporary file with index `id`? -/
def Effect.isCreateOf (id : Nat) : Effect → Bool
  | .tempCreate j => j == id
  | _ => false

/-- Is this effect a process launch that the handler did not wait for? -/
def Effect.isBgSpawn : Effect → Bool
  | .spawn _ _ _ _ _ w => !w
  | _ => false

example :
    pySplit2 "refs/heads/foo/bar" '/' = ["refs", "heads", "foo/bar"] := by
  decide

example : pySplit "sha1=abc" '=' = ["sha1", "abc"] := by decide

example : basename "/hooks/push-background" = "push-background" := by decide

example : pyJoin "/h" "push" = "/h/push" := by decide

example : constant_time_compare "abc" "abc" = true := by decide

example : constant_time_compare "abc" "abd" = false := by decide

theorem nat_or_eq_zero (a b : Nat) : a ||| b = 0 ↔ a = 0 ∧ b = 0 := by
  constructor
  · intro h
    refine ⟨Nat.eq_of_testBit_eq fun i => ?_, Nat.eq_of_testBit_eq fun i => ?_⟩ <;>
      have hb := congrArg (Nat.testBit · i) h <;>
      simp only [Nat.testBit_or, Nat.zero_testBit, Bool.or_eq_false_iff] at hb <;>
      simp [hb.1, hb.2]
  · rintro ⟨rfl, rfl⟩; rfl

theorem char_toNat_inj (a b : Char) (h : a.toNat = b.toNat) : a = b := by
  apply Char.eq_of_val_eq
  apply UInt32.eq_of_toBitVec_eq
  exact BitVec.eq_of_toNat_eq h

theorem foldl_orXor_eq_zero (l : List (Char × Char)) (init : Nat) :
    (l.foldl (fun result xy => result ||| (xy.1.toNat ^^^ xy.2.toNat)) init = 0)
    ↔ (init = 0 ∧ ∀ p ∈ l, p.1 = p.2) := by
  induction l generalizing init with
  | nil => simp
  | cons p t ih =>
    simp only [List.foldl_cons, ih, List.mem_cons, nat_or_eq_zero]
    constructor
    · rintro ⟨⟨h0, hx⟩, hall⟩
      refine ⟨h0, fun q hq => ?_⟩
      rcases hq with hq | hq
      · subst hq
        exact char_toNat_inj _ _ (Nat.xor_eq_zero.mp hx)
      · exact hall q hq
    · rintro ⟨h0, hall⟩
      refine ⟨⟨h0, ?_⟩, fun q hq => hall q (Or.inr hq)⟩
      rw [hall p (Or.inl rfl)]
      exact Nat.xor_self _

theorem zip_forall_eq (l m : List Char) (h : l.length = m.length) :
    (∀ p ∈ l.zip m, p.1 = p.2) ↔ l = m := by
  induction l generalizing m with
  | nil =>
    cases m with
    | nil => simp
    | cons y ys => simp at h
  | cons x xs ih =>
    cases m with
    | nil => simp at h
    | cons y ys =>
      simp only [List.length_cons, Nat.succ.injEq] at h
      simp only [List.zip_cons_cons, List.mem_cons, List.cons.injEq]
      constructor
      · intro hall
        exact ⟨hall (x, y) (Or.inl rfl), (ih ys h).mp fun q hq => hall q (Or.inr hq)⟩
      · rintro ⟨rfl, rfl⟩
        intro q hq
        rcases hq with rfl | hq
        · rfl
        · exact ((ih _ h).mpr rfl) q hq

theorem string_eq_iff_data (a b : String) : a = b ↔ a.data = b.data := by
  constructor
  · intro h; rw [h]
  · intro h
    cases a; cases b
    exact congrArg String.mk h

/-- The source's pure fallback `constant_time_compare` decides exactly
string equality: it accepts two strings iff they are equal. -/
theorem constant_time_compare_iff (a b : String) :
    constant_time_compare a b = true ↔ a = b := by
  unfold constant_time_compare
  by_cases h : a.length = b.length
  · have hc : (a.length != b.length) = false := by simp [h]
    rw [hc]
    simp only [Bool.false_eq_true, if_false, beq_iff_eq, foldl_orXor_eq_zero,
      true_and]
    rw [string_eq_iff_data]
    exact zip_forall_eq a.data b.data h
  · have hc : (a.length != b.length) = true := by simp [h]
    rw [hc]
    simp only [if_true, Bool.false_eq_true, false_iff]
    intro e
    exact h (by rw [e])

/-- C1: the original claim expects branch `"foo"` for
`ref = "refs/heads/foo/bar"`, but `split('/', 2)` performs at most two
splits, so index 2 is everything after the second slash: `"foo/bar"`. -/
theorem C1_counterexample :
    extractBranch "push" (Json.obj [("ref", Json.str "refs/heads/foo/bar")])
      = Except.ok (Json.str "foo/bar") ∧
    extractBranch "push" (Json.obj [("ref", Json.str "refs/heads/foo/bar")])
      ≠ Except.ok (Json.str "foo") := by
  refine ⟨rfl, ?_⟩
  intro h
  have h' : Except.ok (Json.str "foo/bar")
      = (Except.ok (Json.str "foo") : Except PyErr Json) := h
  injection h' with h1
  injection h1 with h2
  exact absurd h2 (by decide)

/-- C1 (amended): for every push-event payload carrying no `ref_type` and
no `pull_request` field whose `ref` field is `"refs/heads/foo/bar"`, the
derived branch is `"foo/bar"`: only 2 splits are performed, so the third
slash-delimited segment keeps all further slashes. -/
theorem C1_push_branch_two_splits (payload : Json)
    (h1 : payload.hasKey "ref_type" = false)
    (h2 : payload.hasKey "pull_request" = false)
    (h3 : payload.getKey "ref" = Except.ok (Json.str "refs/heads/foo/bar")) :
    extractBranch "push" payload = Except.ok (Json.str "foo/bar") := by
  unfold extractBranch tryBranch
  rw [h1, h2, h3]
  rfl

theorem C1_push_branch_two_splits_witness :
    (Json.obj [("ref", Json.str "refs/heads/foo/bar")]).hasKey "ref_type" = false ∧
    (Json.obj [("ref", Json.str "refs/heads/foo/bar")]).hasKey "pull_request" = false ∧
    extractBranch "push" (Json.obj [("ref", Json.str "refs/heads/foo/bar")])
      = Except.ok (Json.str "foo/bar") :=
  ⟨rfl, rfl, C1_push_branch_two_splits _ rfl rfl rfl⟩

/-- C2: with a non-empty secret, a missing `X-Hub-Signature` header is
rejected with 403; an algorithm name other than `sha1` is rejected with
501; a hex digest that differs from HMAC-SHA1(secret, raw body) — compared
by `constant_time_compare`, which accepts exactly on equality — is
rejected with 403; a matching digest lets the request proceed; with an
empty secret, verification is skipped entirely. -/
theorem C2_signature_verification (cfg : Config) (env : Env) (req : Request) :
    (∀ a b, constant_time_compare a b = true ↔ a = b) ∧
    (cfg.enforce_secret = "" → checkSecret cfg env req = none) ∧
    (cfg.enforce_secret ≠ "" →
      (req.xHubSignature = none → checkSecret cfg env req = some (Outcome.abort 403)) ∧
      (∀ h sha_name sig, req.xHubSignature = some h →
        pySplit h '=' = [sha_name, sig] →
        (sha_name ≠ "sha1" → checkSecret cfg env req = some (Outcome.abort 501)) ∧
        (sha_name = "sha1" → sig ≠ env.hmacHex cfg.enforce_secret req.data →
          checkSecret cfg env req = some (Outcome.abort 403)) ∧
        (sha_name = "sha1" → sig = env.hmacHex cfg.enforce_secret req.data →
          checkSecret cfg env req = none))) := by
  refine ⟨constant_time_compare_iff, fun he => ?_, fun hne => ⟨fun hnone => ?_, ?_⟩⟩
  · simp [checkSecret, he]
  · have hb : (cfg.enforce_secret != "") = true := bne_iff_ne.mpr hne
    simp [checkSecret, hb, hnone]
  · intro h sha_name sig hsome hsplit
    have hb : (cfg.enforce_secret != "") = true := bne_iff_ne.mpr hne
    refine ⟨fun hsha => ?_, fun hsha hdig => ?_, fun hsha hdig => ?_⟩
    · have hs : (sha_name != "sha1") = true := bne_iff_ne.mpr hsha
      simp [checkSecret, hb, hsome, hsplit, hs]
    · subst hsha
      have hc : constant_time_compare
          (env.hmacHex cfg.enforce_secret req.data) sig = false := by
        rw [← Bool.not_eq_true, constant_time_compare_iff]
        exact fun e => hdig e.symm
      simp [checkSecret, hb, hsome, hsplit, hc]
    · subst hsha
      have hc : constant_time_compare
          (env.hmacHex cfg.enforce_secret req.data) sig = true := by
        rw [constant_time_compare_iff]
        exact hdig.symm
      simp [checkSecret, hb, hsome, hsplit, hc]

/-- C3: the original claim says missing payload keys are never escalated,
but a push payload lacking the `deleted` key raises an uncaught `KeyError`
(line 167 reads `payload['deleted']` unguarded), which escalates to a
request-level failure. -/
theorem C3_counterexample :
    index ⟨false, "", false, "/h"⟩
      ⟨true, fun _ => false, fun _ => false, fun _ _ => "", fun _ => (0, "", "")⟩
      ⟨"POST", none, some "push", "",
        some (Json.obj [("ref", Json.str "refs/heads/main"),
                        ("repository", Json.obj [("name", Json.str "repo1")])])⟩
      = ([], Outcome.pyError PyErr.keyError) := rfl

/-- C3 (amended): missing keys consulted during branch derivation are
recovered locally (the `try`/`except KeyError` leaves `branch = None`),
and a missing `repository` key leaves `name = None`; but a payload whose
`repository` object lacks `name`, and a push payload lacking `deleted`,
raise an uncaught `KeyError` that escalates to a request-level failure. -/
theorem C3_missing_keys :
    (∀ event payload, extractBranch event payload ≠ Except.error PyErr.keyError) ∧
    (∀ payload, payload.hasKey "repository" = false →
      extractName payload = Except.ok Json.null) ∧
    extractName (Json.obj [("repository", Json.obj [])])
      = Except.error PyErr.keyError ∧
    pushDelete "push" (Json.obj [("ref", Json.str "refs/heads/main")])
      = Except.error PyErr.keyError := by
  refine ⟨?_, ?_, rfl, rfl⟩
  · intro event payload h
    unfold extractBranch at h
    cases htb : tryBranch event payload with
    | ok b => rw [htb] at h; exact Except.noConfusion h
    | error e =>
      rw [htb] at h
      cases e <;> simp at h
  · intro payload hk
    unfold extractName
    rw [hk]
    rfl

theorem C3_missing_keys_witness :
    (Json.obj [("x", Json.num 1)]).hasKey "repository" = false ∧
    extractName (Json.obj [("x", Json.num 1)]) = Except.ok Json.null :=
  ⟨rfl, C3_missing_keys.2.1 (Json.obj [("x", Json.num 1)]) rfl⟩

/-- C4: a push event whose payload has `deleted = true` returns the
`skipped` response with an empty effect trace — no hook is resolved or
invoked and no temporary file is created. -/
theorem C4_push_delete_skips (cfg : Config) (env : Env) (req : Request)
    (payload : Json)
    (hm : req.method = "POST")
    (hip : (cfg.github_ips_only && !env.ipAllowed) = false)
    (hs : checkSecret cfg env req = none)
    (he : req.xGitHubEvent = some "push")
    (hj : req.jsonBody = some payload)
    (hb : ∃ b, extractBranch "push" payload = Except.ok b)
    (hn : ∃ n, extractName payload = Except.ok n)
    (hd : payload.getKey "deleted" = Except.ok (Json.bool true)) :
    index cfg env req = ([], Outcome.response skippedBody) := by
  obtain ⟨b, hb⟩ := hb
  obtain ⟨n, hn⟩ := hn
  have hpd : pushDelete "push" payload = Except.ok true := by
    simp [pushDelete, hd, Json.truthy]
  simp [index, hm, hip, hs, he, hj, hb, hn, hpd]

theorem C4_push_delete_skips_witness :
    index ⟨false, "", false, "/h"⟩
      ⟨true, fun _ => false, fun _ => false, fun _ _ => "", fun _ => (0, "", "")⟩
      ⟨"POST", none, some "push", "",
        some (Json.obj [("ref", Json.str "refs/heads/main"),
                        ("deleted", Json.bool true),
                        ("repository", Json.obj [("name", Json.str "repo1")])])⟩
      = ([], Outcome.response skippedBody) :=
  C4_push_delete_skips _ _ _ _ rfl rfl rfl rfl rfl
    ⟨Json.str "main", rfl⟩ ⟨Json.str "repo1", rfl⟩ rfl

theorem index_trace_empty_or_response (cfg : Config) (env : Env) (req : Request) :
    (index cfg env req).1 = [] ∨
    ∃ b, (index cfg env req).2 = Outcome.response b := by
  unfold index
  repeat' first
    | exact Or.inl rfl
    | exact Or.inr ⟨_, rfl⟩
    | split
    | dsimp only

/-- C9: whenever the handler rejects a request (any `abort`, covering the
method check, origin filter, missing or mismatched signature, unsupported
algorithm and malformed JSON body), the effect trace is empty: no
temporary file was created and no process was spawned. -/
theorem C9_rejections_before_effects (cfg : Config) (env : Env) (req : Request)
    (c : Nat) (h : (index cfg env req).2 = Outcome.abort c) :
    (index cfg env req).1 = [] := by
  rcases index_trace_empty_or_response cfg env req with he | ⟨b, hb⟩
  · exact he
  · rw [h] at hb
    exact Outcome.noConfusion hb

theorem C9_rejections_before_effects_witness :
    (index ⟨false, "", false, "/h"⟩
      ⟨true, fun _ => false, fun _ => false, fun _ _ => "", fun _ => (0, "", "")⟩
      ⟨"GET", none, some "push", "", none⟩).1 = [] :=
  C9_rejections_before_effects _ _ _ 405 rfl

/-- C5: the original claim includes the name/branch candidate tiers
whenever the metadata is present, but the code tests Python truthiness:
with `name` present but empty (`repository.name == ""`) and `branch`
present, the name/branch tiers are skipped entirely. -/
theorem C5_counterexample :
    buildScripts "/hooks" "push" (jsonOfOpt (some "")) (jsonOfOpt (some "main"))
      = [pyJoin "/hooks" "push", pyJoin "/hooks" "push-background",
         pyJoin "/hooks" "all", pyJoin "/hooks" "all-background"] ∧
    pyJoin "/hooks" ("push" ++ "-" ++ "" ++ "-" ++ "main")
      ∉ buildScripts "/hooks" "push" (jsonOfOpt (some "")) (jsonOfOpt (some "main")) := by
  decide

/-- C5 (amended): the resolver builds exactly the claimed ordered
candidate list — the name/branch tiers appearing only when the metadata is
present AND non-empty — each path joined under the hooks path; and when
the existence-and-executable filter leaves nothing, the handler answers
`nop` with an empty effect trace (no temporary file). -/
theorem C5_resolver_order_and_nop :
    (∀ hooks event name branch,
      buildScripts hooks event (jsonOfOpt name) (jsonOfOpt branch)
        = specCandidates hooks event name branch) ∧
    (∀ (cfg : Config) (env : Env) (req : Request) (ev : String) (payload b n : Json),
      req.method = "POST" → (cfg.github_ips_only && !env.ipAllowed) = false →
      checkSecret cfg env req = none → req.xGitHubEvent = some ev →
      ev ≠ "ping" → req.jsonBody = some payload →
      extractBranch ev payload = Except.ok b →
      extractName payload = Except.ok n →
      pushDelete ev payload = Except.ok false →
      (buildScripts cfg.hooks_path ev n b).filter
        (fun s => env.isfile s && env.xok s) = [] →
      index cfg env req = ([], Outcome.response nopBody)) := by
  constructor
  · intro hooks event name branch
    cases name with
    | none =>
      cases branch with
      | none => simp [buildScripts, specCandidates, jsonOfOpt, Json.truthy]
      | some b => simp [buildScripts, specCandidates, jsonOfOpt, Json.truthy]
    | some n =>
      cases branch with
      | none => simp [buildScripts, specCandidates, jsonOfOpt, Json.truthy, pyStr]
      | some b =>
        by_cases hn : n = "" <;> by_cases hb : b = "" <;>
          simp [buildScripts, specCandidates, jsonOfOpt, Json.truthy, pyStr, hn, hb]
  · intro cfg env req ev payload b n hm hip hs he hev hj hb hn hpd hfilter
    have hevb : (ev == "ping") = false := beq_eq_false_iff_ne.mpr hev
    simp [index, hm, hip, hs, he, hevb, hj, hb, hn, hpd, hfilter]

theorem C5_resolver_order_and_nop_witness :
    buildScripts "/h" "push" (jsonOfOpt (some "repo1")) (jsonOfOpt (some "main"))
      = specCandidates "/h" "push" (some "repo1") (some "main") ∧
    index ⟨false, "", false, "/h"⟩
      ⟨true, fun _ => false, fun _ => false, fun _ _ => "", fun _ => (0, "", "")⟩
      ⟨"POST", none, some "push", "",
        some (Json.obj [("ref", Json.str "refs/heads/main"),
                        ("deleted", Json.bool false),
                        ("repository", Json.obj [("name", Json.str "repo1")])])⟩
      = ([], Outcome.response nopBody) :=
  ⟨C5_resolver_order_and_nop.1 "/h" "push" (some "repo1") (some "main"),
   C5_resolver_order_and_nop.2 _ _ _ "push"
     (Json.obj [("ref", Json.str "refs/heads/main"),
                ("deleted", Json.bool false),
                ("repository", Json.obj [("name", Json.str "repo1")])])
     (Json.str "main") (Json.str "repo1")
     rfl rfl rfl rfl (by decide) rfl rfl rfl rfl rfl⟩

theorem spawnPaths_runScripts (run : String → Int × String × String)
    (ev nameArg branchArg : String) (tmp : Nat) (scripts : List String) :
    ∀ ctr ran,
      spawnPaths (runScripts run ev nameArg branchArg tmp scripts ctr ran).1
        = scripts := by
  induction scripts with
  | nil => intro ctr ran; rfl
  | cons s rest ih =>
    intro ctr ran
    by_cases hbg : pyEndsWith s "-background" = true
    · simp [runScripts, hbg, spawnPaths, ih]
    · simp only [Bool.not_eq_true] at hbg
      simp [runScripts, hbg, spawnPaths, ih]

theorem record_mem_runScripts_sync (run : String → Int × String × String)
    (ev nameArg branchArg : String) (tmp : Nat) (scripts : List String)
    (s : String) (hs : s ∈ scripts)
    (hsync : pyEndsWith s "-background" = false) :
    ∀ ctr ran,
      Effect.record (basename s) (syncEntry (run s))
        ∈ (runScripts run ev nameArg branchArg tmp scripts ctr ran).1 := by
  induction scripts with
  | nil => cases hs
  | cons s' rest ih =>
    intro ctr ran
    rcases List.mem_cons.mp hs with rfl | hmem
    · simp [runScripts, hsync]
    · by_cases hbg : pyEndsWith s' "-background" = true
      · simp only [runScripts, hbg, if_true]
        exact List.mem_cons_of_mem _ (List.mem_cons_of_mem _
          (List.mem_cons_of_mem _ (ih hmem _ _)))
      · simp only [Bool.not_eq_true] at hbg
        simp only [runScripts, hbg, Bool.false_eq_true, if_false]
        exact List.mem_cons_of_mem _ (List.mem_cons_of_mem _ (ih hmem _ _))

/-- C6: every hook surviving the filter is spawned, and the spawned paths
are exactly the resolved list in order — a fan-out over all matches, for
every possible exit-code oracle, so a non-zero exit from one synchronous
hook (whose returncode, stdout and stderr are recorded under its base
name) never prevents the remaining hooks from being invoked. -/
theorem C6_fanout_all_hooks (run : String → Int × String × String)
    (ev nameArg branchArg : String) (tmp ctr : Nat)
    (ran : List (String × Json)) (scripts : List String) :
    spawnPaths (runScripts run ev nameArg branchArg tmp scripts ctr ran).1
      = scripts ∧
    (∀ s ∈ scripts, pyEndsWith s "-background" = false →
      Effect.record (basename s) (syncEntry (run s))
        ∈ (runScripts run ev nameArg branchArg tmp scripts ctr ran).1) :=
  ⟨spawnPaths_runScripts run ev nameArg branchArg tmp scripts ctr ran,
   fun s hs hsync =>
     record_mem_runScripts_sync run ev nameArg branchArg tmp scripts s hs hsync ctr ran⟩

theorem C6_fanout_all_hooks_witness :
    spawnPaths (runScripts (fun _ => (1, "out", "err")) "push" "repo1" "main"
      0 ["/h/push", "/h/all"] 1 []).1 = ["/h/push", "/h/all"] ∧
    Effect.record (basename "/h/push") (syncEntry (1, "out", "err"))
      ∈ (runScripts (fun _ => (1, "out", "err")) "push" "repo1" "main"
          0 ["/h/push", "/h/all"] 1 []).1 :=
  ⟨(C6_fanout_all_hooks (fun _ => (1, "out", "err")) "push" "repo1" "main"
      0 1 [] ["/h/push", "/h/all"]).1,
   (C6_fanout_all_hooks (fun _ => (1, "out", "err")) "push" "repo1" "main"
      0 1 [] ["/h/push", "/h/all"]).2 "/h/push" (by decide) (by decide)⟩

theorem takeWhile_append_sat (p : Char → Bool) (l1 l2 : List Char)
    (h : ∀ c ∈ l1, p c = true) :
    (l1 ++ l2).takeWhile p = l1 ++ l2.takeWhile p := by
  induction l1 with
  | nil => rfl
  | cons c cs ih =>
    have hc : p c = true := h c (by simp)
    simp only [List.cons_append, List.takeWhile_cons, hc, if_true]
    rw [ih (fun x hx => h x (by simp [hx]))]

theorem basename_suffix (s : String) : (basename s).data <:+ s.data := by
  unfold basename
  refine List.reverse_prefix.mp ?_
  rw [List.reverse_reverse]
  exact List.takeWhile_prefix _

theorem suffix_basename (s suf : String)
    (hnos : ∀ c ∈ suf.data, (c != '/') = true)
    (h : suf.data <:+ s.data) : suf.data <:+ (basename s).data := by
  unfold basename
  have hpre : suf.data.reverse <+: s.data.reverse := List.reverse_prefix.mpr h
  obtain ⟨rest, hrest⟩ := hpre
  have hall : ∀ c ∈ suf.data.reverse, (c != '/') = true :=
    fun c hc => hnos c (List.mem_reverse.mp hc)
  have htw : (s.data.reverse).takeWhile (fun c => c != '/')
      = suf.data.reverse ++ rest.takeWhile (fun c => c != '/') := by
    rw [← hrest]
    exact takeWhile_append_sat _ _ _ hall
  show suf.data <:+ ((s.data.reverse.takeWhile (fun c => c != '/')).reverse)
  rw [htw, List.reverse_append, List.reverse_reverse]
  exact List.suffix_append _ _

/-- If two paths have the same base name and the first ends in a
slash-free suffix, so does the second (every path ends in its own base
name). -/
theorem pyEndsWith_basename_trans (s1 s2 suf : String)
    (hnos : ∀ c ∈ suf.data, (c != '/') = true)
    (h12 : basename s1 = basename s2)
    (h1 : pyEndsWith s1 suf = true) : pyEndsWith s2 suf = true := by
  unfold pyEndsWith at h1 ⊢
  rw [List.isSuffixOf_iff_suffix] at h1 ⊢
  have hb1 : suf.data <:+ (basename s1).data := suffix_basename s1 suf hnos h1
  rw [h12] at hb1
  exact hb1.trans (basename_suffix s2)

theorem runScripts_cons_bg (run : String → Int × String × String)
    (ev nameArg branchArg : String) (tmp : Nat) (s' : String)
    (rest : List String) (ctr : Nat) (ran : List (String × Json))
    (hbg : pyEndsWith s' "-background" = true) :
    (runScripts run ev nameArg branchArg tmp (s' :: rest) ctr ran).1
      = Effect.tempCreate ctr ::
        Effect.spawn s' ctr ev nameArg branchArg false ::
        Effect.record (basename s') bgEntry ::
        (runScripts run ev nameArg branchArg tmp rest (ctr + 1)
          (dictInsert ran (basename s') bgEntry)).1 := by
  simp [runScripts, hbg]

theorem runScripts_cons_sync (run : String → Int × String × String)
    (ev nameArg branchArg : String) (tmp : Nat) (s' : String)
    (rest : List String) (ctr : Nat) (ran : List (String × Json))
    (hbg : pyEndsWith s' "-background" = false) :
    (runScripts run ev nameArg branchArg tmp (s' :: rest) ctr ran).1
      = Effect.spawn s' tmp ev nameArg branchArg true ::
        Effect.record (basename s') (syncEntry (run s')) ::
        (runScripts run ev nameArg branchArg tmp rest ctr
          (dictInsert ran (basename s') (syncEntry (run s')))).1 := by
  simp [runScripts, hbg]

theorem runScripts_record_bg_value (run : String → Int × String × String)
    (ev nameArg branchArg : String) (tmp : Nat) (s : String)
    (hbg : pyEndsWith s "-background" = true) :
    ∀ (scripts : List String) (ctr : Nat) (ran : List (String × Json)) (v : Json),
      Effect.record (basename s) v
        ∈ (runScripts run ev nameArg branchArg tmp scripts ctr ran).1 →
      v = bgEntry := by
  intro scripts
  induction scripts with
  | nil => intro ctr ran v hmem; cases hmem
  | cons s' rest ih =>
    intro ctr ran v hmem
    by_cases hbg' : pyEndsWith s' "-background" = true
    · rw [runScripts_cons_bg run ev nameArg branchArg tmp s' rest ctr ran hbg']
        at hmem
      rcases List.mem_cons.mp hmem with h | hmem
      · exact absurd h (by simp)
      rcases List.mem_cons.mp hmem with h | hmem
      · exact absurd h (by simp)
      rcases List.mem_cons.mp hmem with h | hmem
      · rw [Effect.record.injEq] at h
        exact h.2
      · exact ih _ _ _ hmem
    · rw [Bool.not_eq_true] at hbg'
      rw [runScripts_cons_sync run ev nameArg branchArg tmp s' rest ctr ran hbg']
        at hmem
      rcases List.mem_cons.mp hmem with h | hmem
      · exact absurd h (by simp)
      rcases List.mem_cons.mp hmem with h | hmem
      · rw [Effect.record.injEq] at h
        have h2 : pyEndsWith s' "-background" = true :=
          pyEndsWith_basename_trans s s' "-background" (by decide) h.1 hbg
        rw [h2] at hbg'
        exact Bool.noConfusion hbg'
      · exact ih _ _ _ hmem

theorem runScripts_bg_spawn_effects (run : String → Int × String × String)
    (ev nameArg branchArg : String) (tmp : Nat) (s : String)
    (hbg : pyEndsWith s "-background" = true) :
    ∀ (scripts : List String) (ctr : Nat) (ran : List (String × Json)),
      tmp < ctr → s ∈ scripts →
      ∃ id, tmp < id ∧
        Effect.tempCreate id
          ∈ (runScripts run ev nameArg branchArg tmp scripts ctr ran).1 ∧
        Effect.spawn s id ev nameArg branchArg false
          ∈ (runScripts run ev nameArg branchArg tmp scripts ctr ran).1 ∧
        Effect.record (basename s) bgEntry
          ∈ (runScripts run ev nameArg branchArg tmp scripts ctr ran).1 := by
  intro scripts
  induction scripts with
  | nil => intro ctr ran hctr hmem; cases hmem
  | cons s' rest ih =>
    intro ctr ran hctr hmem
    rcases List.mem_cons.mp hmem with rfl | hmem2
    · refine ⟨ctr, hctr, ?_, ?_, ?_⟩ <;>
        rw [runScripts_cons_bg run ev nameArg branchArg tmp s rest ctr ran hbg]
      · exact List.mem_cons_self _ _
      · exact List.mem_cons_of_mem _ (List.mem_cons_self _ _)
      · exact List.mem_cons_of_mem _
          (List.mem_cons_of_mem _ (List.mem_cons_self _ _))
    · by_cases hbg' : pyEndsWith s' "-background" = true
      · obtain ⟨id, hid, h1, h2, h3⟩ :=
          ih (ctr + 1) (dictInsert ran (basename s') bgEntry)
            (Nat.lt_succ_of_lt hctr) hmem2
        refine ⟨id, hid, ?_, ?_, ?_⟩ <;>
          rw [runScripts_cons_bg run ev nameArg branchArg tmp s' rest ctr ran hbg']
        · exact List.mem_cons_of_mem _
            (List.mem_cons_of_mem _ (List.mem_cons_of_mem _ h1))
        · exact List.mem_cons_of_mem _
            (List.mem_cons_of_mem _ (List.mem_cons_of_mem _ h2))
        · exact List.mem_cons_of_mem _
            (List.mem_cons_of_mem _ (List.mem_cons_of_mem _ h3))
      · rw [Bool.not_eq_true] at hbg'
        obtain ⟨id, hid, h1, h2, h3⟩ :=
          ih ctr (dictInsert ran (basename s') (syncEntry (run s'))) hctr hmem2
        refine ⟨id, hid, ?_, ?_, ?_⟩ <;>
          rw [runScripts_cons_sync run ev nameArg branchArg tmp s' rest ctr ran hbg']
        · exact List.mem_cons_of_mem _ (List.mem_cons_of_mem _ h1)
        · exact List.mem_cons_of_mem _ (List.mem_cons_of_mem _ h2)
        · exact List.mem_cons_of_mem _ (List.mem_cons_of_mem _ h3)

theorem runScripts_countP_remove (run : String → Int × String × String)
    (ev nameArg branchArg : String) (tmp : Nat) :
    ∀ (scripts : List String) (ctr : Nat) (ran : List (String × Json)),
      ((runScripts run ev nameArg branchArg tmp scripts ctr ran).1).countP
        Effect.isRemove = 0 := by
  intro scripts
  induction scripts with
  | nil => intro ctr ran; rfl
  | cons s' rest ih =>
    intro ctr ran
    by_cases hbg' : pyEndsWith s' "-background" = true
    · rw [runScripts_cons_bg run ev nameArg branchArg tmp s' rest ctr ran hbg']
      simp [List.countP_cons, Effect.isRemove, ih]
    · rw [Bool.not_eq_true] at hbg'
      rw [runScripts_cons_sync run ev nameArg branchArg tmp s' rest ctr ran hbg']
      simp [List.countP_cons, Effect.isRemove, ih]

theorem runScripts_countP_create_eq_bg (run : String → Int × String × String)
    (ev nameArg branchArg : String) (tmp : Nat) :
    ∀ (scripts : List String) (ctr : Nat) (ran : List (String × Json)),
      ((runScripts run ev nameArg branchArg tmp scripts ctr ran).1).countP
        Effect.isCreate
      = ((runScripts run ev nameArg branchArg tmp scripts ctr ran).1).countP
        Effect.isBgSpawn := by
  intro scripts
  induction scripts with
  | nil => intro ctr ran; rfl
  | cons s' rest ih =>
    intro ctr ran
    by_cases hbg' : pyEndsWith s' "-background" = true
    · rw [runScripts_cons_bg run ev nameArg branchArg tmp s' rest ctr ran hbg']
      simp [List.countP_cons, Effect.isCreate, Effect.isBgSpawn, ih]
    · rw [Bool.not_eq_true] at hbg'
      rw [runScripts_cons_sync run ev nameArg branchArg tmp s' rest ctr ran hbg']
      simp [List.countP_cons, Effect.isCreate, Effect.isBgSpawn, ih]

theorem runScripts_countP_createOf (run : String → Int × String × String)
    (ev nameArg branchArg : String) (tmp : Nat) (id : Nat) :
    ∀ (scripts : List String) (ctr : Nat) (ran : List (String × Json)),
      id < ctr →
      ((runScripts run ev nameArg branchArg tmp scripts ctr ran).1).countP
        (Effect.isCreateOf id) = 0 := by
  intro scripts
  induction scripts with
  | nil => intro ctr ran hlt; rfl
  | cons s' rest ih =>
    intro ctr ran hlt
    by_cases hbg' : pyEndsWith s' "-background" = true
    · have hne : (ctr == id) = false := by
        simp only [beq_eq_false_iff_ne, ne_eq]
        exact fun e => absurd hlt (by rw [e]; exact Nat.lt_irrefl id)
      rw [runScripts_cons_bg run ev nameArg branchArg tmp s' rest ctr ran hbg']
      simp [List.countP_cons, Effect.isCreateOf, hne,
        ih _ _ (Nat.lt_succ_of_lt hlt)]
    · rw [Bool.not_eq_true] at hbg'
      rw [runScripts_cons_sync run ev nameArg branchArg tmp s' rest ctr ran hbg']
      simp [List.countP_cons, Effect.isCreateOf, ih _ _ hlt]

/-- C7: the original claim says a backgrounded hook records exactly
`backgrounded: true`, but the code records the string `"yes"`
(`ran[basename(s)] = dict with backgrounded mapped to "yes"`), which is
not the JSON boolean `true`. -/
theorem C7_counterexample :
    (runScripts (fun _ => (0, "", "")) "push" "None" "None" 0
      ["/h/push-background"] 1 []).1
      = [Effect.tempCreate 1,
         Effect.spawn "/h/push-background" 1 "push" "None" "None" false,
         Effect.record "push-background" bgEntry] ∧
    bgEntry ≠ Json.obj [("backgrounded", Json.bool true)] := by
  constructor
  · rfl
  · intro h
    rw [bgEntry] at h
    rw [Json.obj.injEq, List.cons.injEq, Prod.mk.injEq] at h
    exact Json.noConfusion h.1.2

/-- C7 (amended): for every resolved hook whose path ends in
`-background`, the dispatcher creates a fresh dedicated temporary file
(distinct from the shared one), launches the process without waiting, and
records under the hook's base name exactly the marker object mapping
`backgrounded` to the string `"yes"` — an object carrying no
`returncode`, `stdout` or `stderr` key. -/
theorem C7_backgrounded_dispatch (run : String → Int × String × String)
    (ev nameArg branchArg : String) (tmp ctr : Nat)
    (ran : List (String × Json)) (scripts : List String) (s : String)
    (hctr : tmp < ctr) (hs : s ∈ scripts)
    (hbg : pyEndsWith s "-background" = true) :
    (∃ id, tmp < id ∧
      Effect.tempCreate id
        ∈ (runScripts run ev nameArg branchArg tmp scripts ctr ran).1 ∧
      Effect.spawn s id ev nameArg branchArg false
        ∈ (runScripts run ev nameArg branchArg tmp scripts ctr ran).1) ∧
    Effect.record (basename s) bgEntry
      ∈ (runScripts run ev nameArg branchArg tmp scripts ctr ran).1 ∧
    (∀ v, Effect.record (basename s) v
        ∈ (runScripts run ev nameArg branchArg tmp scripts ctr ran).1 →
      v = bgEntry) ∧
    bgEntry.hasKey "backgrounded" = true ∧
    bgEntry.hasKey "returncode" = false ∧
    bgEntry.hasKey "stdout" = false ∧
    bgEntry.hasKey "stderr" = false := by
  obtain ⟨id, hid, h1, h2, h3⟩ :=
    runScripts_bg_spawn_effects run ev nameArg branchArg tmp s hbg
      scripts ctr ran hctr hs
  exact ⟨⟨id, hid, h1, h2⟩, h3,
    fun v => runScripts_record_bg_value run ev nameArg branchArg tmp s hbg
      scripts ctr ran v, rfl, rfl, rfl, rfl⟩

theorem C7_backgrounded_dispatch_witness :
    Effect.record (basename "/h/push-background") bgEntry
      ∈ (runScripts (fun _ => (0, "", "")) "push" "repo1" "main" 0
          ["/h/push", "/h/push-background"] 1 []).1 :=
  (C7_backgrounded_dispatch (fun _ => (0, "", "")) "push" "repo1" "main" 0 1
    [] ["/h/push", "/h/push-background"] "/h/push-background"
    (by decide) (by decide) (by decide)).2.1

/-- C8: in every dispatch with at least one resolved hook, exactly one
shared temporary payload file (index 0) is created; it is also the only
file ever removed, removed exactly once, and the removal is the final
effect — after all synchronous hooks have completed; every backgrounded
hook accounts for exactly one additional temporary file, none of which is
ever removed. -/
theorem C8_temp_file_lifecycle (cfg : Config) (env : Env) (req : Request)
    (ev : String) (payload b n : Json) (s0 : String) (rest : List String)
    (hm : req.method = "POST")
    (hip : (cfg.github_ips_only && !env.ipAllowed) = false)
    (hs : checkSecret cfg env req = none)
    (he : req.xGitHubEvent = some ev)
    (hev : ev ≠ "ping")
    (hj : req.jsonBody = some payload)
    (hb : extractBranch ev payload = Except.ok b)
    (hn : extractName payload = Except.ok n)
    (hpd : pushDelete ev payload = Except.ok false)
    (hsc : (buildScripts cfg.hooks_path ev n b).filter
      (fun s => env.isfile s && env.xok s) = s0 :: rest) :
    ((index cfg env req).1).countP (Effect.isCreateOf 0) = 1 ∧
    ((index cfg env req).1).countP Effect.isRemove = 1 ∧
    ((index cfg env req).1).getLast? = some (Effect.tempRemove 0) ∧
    (∀ id, Effect.tempRemove id ∈ (index cfg env req).1 → id = 0) ∧
    ((index cfg env req).1).countP Effect.isCreate
      = 1 + ((index cfg env req).1).countP Effect.isBgSpawn := by
  have hevb : (ev == "ping") = false := beq_eq_false_iff_ne.mpr hev
  have htr : (index cfg env req).1
      = Effect.tempCreate 0 ::
        ((runScripts env.run ev (pyStr n) (pyStr b) 0 (s0 :: rest) 1 []).1
          ++ [Effect.tempRemove 0]) := by
    simp [index, hm, hip, hs, he, hevb, hj, hb, hn, hpd, hsc]
  rw [htr]
  have hc0 : ((runScripts env.run ev (pyStr n) (pyStr b) 0
      (s0 :: rest) 1 []).1).countP (Effect.isCreateOf 0) = 0 :=
    runScripts_countP_createOf env.run ev (pyStr n) (pyStr b) 0 0
      (s0 :: rest) 1 [] (by decide)
  have hrm : ((runScripts env.run ev (pyStr n) (pyStr b) 0
      (s0 :: rest) 1 []).1).countP Effect.isRemove = 0 :=
    runScripts_countP_remove env.run ev (pyStr n) (pyStr b) 0
      (s0 :: rest) 1 []
  have hce : ((runScripts env.run ev (pyStr n) (pyStr b) 0
      (s0 :: rest) 1 []).1).countP Effect.isCreate
      = ((runScripts env.run ev (pyStr n) (pyStr b) 0
          (s0 :: rest) 1 []).1).countP Effect.isBgSpawn :=
    runScripts_countP_create_eq_bg env.run ev (pyStr n) (pyStr b) 0
      (s0 :: rest) 1 []
  refine ⟨?_, ?_, ?_, ?_, ?_⟩
  · simp [List.countP_cons, List.countP_append, Effect.isCreateOf, hc0]
  · simp [List.countP_cons, List.countP_append, Effect.isRemove, hrm]
  · exact List.getLast?_concat
      (Effect.tempCreate 0 ::
        (runScripts env.run ev (pyStr n) (pyStr b) 0 (s0 :: rest) 1 []).1)
  · intro id hmem
    rcases List.mem_cons.mp hmem with h | hmem
    · exact absurd h (by simp)
    rcases List.mem_append.mp hmem with h | h
    · have hz := List.countP_eq_zero.mp hrm _ h
      simp [Effect.isRemove] at hz
    · rcases List.mem_singleton.mp h with h2
      injection h2
  · simp only [List.countP_cons, List.countP_append, hce]
    simp [Effect.isCreate, Effect.isBgSpawn, Nat.add_comm]

theorem C8_temp_file_lifecycle_witness :
    ((index ⟨false, "", false, "/h"⟩
      ⟨true, fun _ => true, fun _ => true, fun _ _ => "", fun _ => (0, "", "")⟩
      ⟨"POST", none, some "push", "",
        some (Json.obj [("ref", Json.str "refs/heads/main"),
                        ("deleted", Json.bool false),
                        ("repository", Json.obj [("name", Json.str "repo1")])])⟩).1).countP
      (Effect.isCreateOf 0) = 1 ∧
    ((index ⟨false, "", false, "/h"⟩
      ⟨true, fun _ => true, fun _ => true, fun _ _ => "", fun _ => (0, "", "")⟩
      ⟨"POST", none, some "push", "",
        some (Json.obj [("ref", Json.str "refs/heads/main"),
                        ("deleted", Json.bool false),
                        ("repository", Json.obj [("name", Json.str "repo1")])])⟩).1).getLast?
      = some (Effect.tempRemove 0) :=
  ⟨(C8_temp_file_lifecycle ⟨false, "", false, "/h"⟩
      ⟨true, fun _ => true, fun _ => true, fun _ _ => "", fun _ => (0, "", "")⟩
      ⟨"POST", none, some "push", "",
        some (Json.obj [("ref", Json.str "refs/heads/main"),
                        ("deleted", Json.bool false),
                        ("repository", Json.obj [("name", Json.str "repo1")])])⟩ "push"
      (Json.obj [("ref", Json.str "refs/heads/main"),
                 ("deleted", Json.bool false),
                 ("repository", Json.obj [("name", Json.str "repo1")])])
      (Json.str "main") (Json.str "repo1")
      "/h/push-repo1-main"
      ["/h/push-repo1-main-background", "/h/push-repo1",
       "/h/push-repo1-background", "/h/push", "/h/push-background",
       "/h/all", "/h/all-background"]
      rfl rfl rfl rfl (by decide) rfl rfl rfl rfl rfl).1,
   (C8_temp_file_lifecycle ⟨false, "", false, "/h"⟩
      ⟨true, fun _ => true, fun _ => true, fun _ _ => "", fun _ => (0, "", "")⟩
      ⟨"POST", none, some "push", "",
        some (Json.obj [("ref", Json.str "refs/heads/main"),
                        ("deleted", Json.bool false),
                        ("repository", Json.obj [("name", Json.str "repo1")])])⟩ "push"
      (Json.obj [("ref", Json.str "refs/heads/main"),
                 ("deleted", Json.bool false),
                 ("repository", Json.obj [("name", Json.str "repo1")])])
      (Json.str "main") (Json.str "repo1")
      "/h/push-repo1-main"
      ["/h/push-repo1-main-background", "/h/push-repo1",
       "/h/push-repo1-background", "/h/push", "/h/push-background",
       "/h/all", "/h/all-background"]
      rfl rfl rfl rfl (by decide) rfl rfl rfl rfl rfl).2.2.1⟩

/-- C10: with a non-empty secret, an `X-Hub-Signature` header that does
not split into exactly two parts at `=` makes the two-way unpack raise an
uncaught `ValueError` — the request ends in an exception, not a 403 or 501
rejection. -/
theorem C10_malformed_signature_header (cfg : Config) (env : Env)
    (req : Request) (h : String)
    (hsec : cfg.enforce_secret ≠ "")
    (hm : req.method = "POST")
    (hip : (cfg.github_ips_only && !env.ipAllowed) = false)
    (hh : req.xHubSignature = some h)
    (hl : (pySplit h '=').length ≠ 2) :
    index cfg env req = ([], Outcome.pyError PyErr.valueError) := by
  have hb : (cfg.enforce_secret != "") = true := bne_iff_ne.mpr hsec
  have hcs : checkSecret cfg env req = some (Outcome.pyError PyErr.valueError) := by
    rcases hsp : pySplit h '=' with _ | ⟨a, _ | ⟨b, _ | ⟨c, t⟩⟩⟩
    · simp [checkSecret, hb, hh, hsp]
    · simp [checkSecret, hb, hh, hsp]
    · exact absurd (by rw [hsp]; rfl : (pySplit h '=').length = 2) hl
    · simp [checkSecret, hb, hh, hsp]
  simp [index, hm, hip, hcs]

theorem C10_malformed_signature_header_witness :
    index ⟨false, "sec", false, "/h"⟩
      ⟨true, fun _ => false, fun _ => false, fun _ _ => "dig", fun _ => (0, "", "")⟩
      ⟨"POST", some "sha1", some "push", "", none⟩
      = ([], Outcome.pyError PyErr.valueError) :=
  C10_malformed_signature_header _ _ _ "sha1" (by decide) rfl rfl rfl (by decide)

theorem C2_signature_verification_witness :
    checkSecret ⟨false, "sec", false, "/h"⟩
      ⟨true, fun _ => false, fun _ => false, fun _ _ => "dig", fun _ => (0, "", "")⟩
      ⟨"POST", none, some "push", "body", none⟩ = some (Outcome.abort 403) ∧
    checkSecret ⟨false, "sec", false, "/h"⟩
      ⟨true, fun _ => false, fun _ => false, fun _ _ => "dig", fun _ => (0, "", "")⟩
      ⟨"POST", some "sha1=dig", some "push", "body", none⟩ = none :=
  ⟨((C2_signature_verification _ _ _).2.2 (by decide)).1 rfl,
   (((C2_signature_verification _ _ _).2.2 (by decide)).2 "sha1=dig" "sha1" "dig"
     rfl (by decide)).2.2 rfl rfl⟩
